import Mathlib

/-!
Shallow embedding of the reliable-UDP messaging core of this repository
(`llcircuit.cpp` and `message.cpp`), together with theorems checking the
natural-language specification against it.

Modelling conventions:
* C++ `U32` counters and sequence numbers are modelled as `Nat`.  No claim
  exercises 32-bit wrap-around; all operations in scope increment by small
  amounts or take values that stay far below `2^32`, and every subtraction
  performed by the code is guarded (`id > mNextIncomingSequence` before
  `id - mNextIncomingSequence`), so `Nat` and `U32` agree on the modelled
  behaviours.
* `std::chrono` time points and durations are modelled as `Nat` ticks; every
  function that reads the clock (`steady_clock::now()`) takes the current
  time `now` as an explicit argument.  The strict comparison
  `now - sent > timeout` is modelled as `timeout < now - sent` with truncated
  subtraction, which agrees with the C++ comparison whenever `now ≥ sent`
  (times from a monotonic clock) and `timeout ≥ 0`.
* The `F32` ping statistics (`mPingDelay`, `mPingDelayAveraged`) are modelled
  over `ℚ`; the only claim touching them (C9) concerns the branch in which
  they are not recomputed at all, so float rounding is irrelevant.
* `std::map<U32, ...>` (ordered by key) is modelled as an association list
  kept sorted by key by the insertion function; `std::unordered_map` as an
  association list with insertion at the front (iteration order of an
  unordered map is unspecified and no claim depends on it).
* Handlers (`std::function`) are opaque: the registry stores handler
  identifiers (`Nat`), and dispatch returns the list of identifiers invoked,
  in invocation order.
-/

namespace Linkpoint

/-- The branch taken by `LLCircuitData::checkPacketInID` (`llcircuit.cpp`
lines 84-92).  The C++ function is `void`; the spec's design notes expose the
branch as a sum-typed classification, which we attach to the embedding. -/
inductive Classification where
  | inOrder
  | inOrderAfterGap
  | duplicateOrReordered
deriving DecidableEq, Repr

/-- `LLHost`: a peer's addressing tuple (address, port), value semantics. -/
structure Host where
  addr : Nat
  port : Nat
deriving DecidableEq, Repr

/-- `LLPacketBuffer`: owned byte region plus sequence, send timestamp and
retry count. -/
structure LLPacketBuffer where
  dataBytes : List Nat
  seq : Nat
  sentTime : Nat
  retryCount : Nat
deriving DecidableEq, Repr

/-- `LLCircuitData` (`llcircuit.cpp` lines 26-77): per-peer circuit state. -/
structure LLCircuitData where
  host : Host
  alive : Bool
  blocked : Bool
  packetsOut : Nat
  packetsIn : Nat
  packetsLost : Nat
  packetLoss : Nat
  lastReceiveTime : Nat
  lastSendTime : Nat
  pingDelay : ℚ
  pingDelayAveraged : ℚ
  nextOutgoingSequence : Nat
  nextIncomingSequence : Nat
  oldestUnackedPacket : Nat
  unackedPackets : List (Nat × LLPacketBuffer)
  retryQueue : List LLPacketBuffer
deriving DecidableEq, Repr

/-- The `LLCircuitData` constructor (`llcircuit.cpp` lines 56-75). -/
def newCircuitData (host : Host) (now : Nat) : LLCircuitData where
  host := host
  alive := true
  blocked := false
  packetsOut := 0
  packetsIn := 0
  packetsLost := 0
  packetLoss := 0
  lastReceiveTime := now
  lastSendTime := now
  pingDelay := 0
  pingDelayAveraged := 0
  nextOutgoingSequence := 0
  nextIncomingSequence := 0
  oldestUnackedPacket := 0
  unackedPackets := []
  retryQueue := []

/-- Lookup in the ordered unacked map (`mUnackedPackets.find`). -/
def unackedFind (l : List (Nat × LLPacketBuffer)) (k : Nat) :
    Option LLPacketBuffer :=
  match l with
  | [] => none
  | (k', v) :: rest => if k' = k then some v else unackedFind rest k

/-- Insertion into the ordered unacked map (`mUnackedPackets[k] = v`):
keeps the association list sorted by key, replacing an existing entry. -/
def unackedInsert (k : Nat) (v : LLPacketBuffer)
    (l : List (Nat × LLPacketBuffer)) : List (Nat × LLPacketBuffer) :=
  match l with
  | [] => [(k, v)]
  | (k', v') :: rest =>
    if k < k' then (k, v) :: (k', v') :: rest
    else if k = k' then (k, v) :: rest
    else (k', v') :: unackedInsert k v rest

/-- `LLCircuitData::checkPacketInID` (`llcircuit.cpp` lines 79-98): records
an inbound sequence number, estimating loss on gaps; the returned
`Classification` names the branch taken. -/
def checkPacketInID (c : LLCircuitData) (id : Nat) (now : Nat) :
    LLCircuitData × Classification :=
  let c := { c with lastReceiveTime := now, packetsIn := c.packetsIn + 1 }
  let (c, cls) :=
    if c.nextIncomingSequence < id then
      -- Missing packets - estimate loss
      let missing := id - c.nextIncomingSequence
      ({ c with packetsLost := c.packetsLost + missing,
                nextIncomingSequence := id + 1 },
       Classification.inOrderAfterGap)
    else if id = c.nextIncomingSequence then
      ({ c with nextIncomingSequence := c.nextIncomingSequence + 1 },
       Classification.inOrder)
    else
      -- duplicate or out-of-order packet
      (c, Classification.duplicateOrReordered)
  -- Update packet loss statistics (mPacketsIn > 0 always holds here)
  ({ c with packetLoss := (c.packetsLost * 100) / (c.packetsIn + c.packetsLost) },
   cls)

/-- `LLCircuitData::nextPacketOutID` (`llcircuit.cpp` lines 100-104):
returns the current outbound sequence and post-increments it. -/
def nextPacketOutID (c : LLCircuitData) (now : Nat) : Nat × LLCircuitData :=
  (c.nextOutgoingSequence,
   { c with lastSendTime := now,
            packetsOut := c.packetsOut + 1,
            nextOutgoingSequence := c.nextOutgoingSequence + 1 })

/-- `LLCircuitData::addReliablePacket` (`llcircuit.cpp` lines 106-119):
stamps a copy of the packet with the sequence and the send time and installs
it in the unacked map, updating the cached oldest when the map was empty. -/
def addReliablePacket (c : LLCircuitData) (packet_id : Nat)
    (packet : LLPacketBuffer) (now : Nat) : LLCircuitData :=
  let buffer := { packet with seq := packet_id, sentTime := now }
  let unacked := unackedInsert packet_id buffer c.unackedPackets
  let c := { c with unackedPackets := unacked }
  if c.unackedPackets.length = 1 then
    { c with oldestUnackedPacket := packet_id }
  else c

/-- `LLCircuitData::ackReliablePacket` (`llcircuit.cpp` lines 121-144):
if the sequence is present, samples the ping, smooths the average, removes
the entry and refreshes the cached oldest; otherwise does nothing. -/
def ackReliablePacket (c : LLCircuitData) (packet_id : Nat) (now : Nat) :
    LLCircuitData :=
  match unackedFind c.unackedPackets packet_id with
  | none => c
  | some buffer =>
    let ping : ℚ := (now : ℚ) - (buffer.sentTime : ℚ)
    let averaged :=
      if c.pingDelayAveraged = 0 then ping
      else c.pingDelayAveraged * (95 / 100) + ping * (5 / 100)
    let unacked := c.unackedPackets.filter (fun e => !(e.1 = packet_id : Bool))
    let c := { c with pingDelayAveraged := averaged, pingDelay := ping,
                      unackedPackets := unacked }
    match c.unackedPackets with
    | [] => c
    | (k, _) :: _ => { c with oldestUnackedPacket := k }

/-- The loop body of `LLCircuitData::checkForTimeouts` (`llcircuit.cpp`
lines 150-169): walks the unacked map in order; every timed-out entry has
its retry count incremented and is removed, going to the retry queue when
the incremented count is `< 3` and to the loss counter otherwise.  Returns
the surviving unacked entries, the packets pushed to the retry queue (in
iteration order), and the number of given-up packets. -/
def sweepUnacked (now timeout : Nat) :
    List (Nat × LLPacketBuffer) →
    List (Nat × LLPacketBuffer) × List LLPacketBuffer × Nat
  | [] => ([], [], 0)
  | (k, p) :: rest =>
    let (u, q, lost) := sweepUnacked now timeout rest
    if timeout < now - p.sentTime then
      let p' := { p with retryCount := p.retryCount + 1 }
      if p'.retryCount < 3 then (u, p' :: q, lost)
      else (u, q, lost + 1)
    else ((k, p) :: u, q, lost)

/-- `LLCircuitData::checkForTimeouts` (`llcircuit.cpp` lines 146-177):
sweeps the unacked map and then declares the circuit dead after 60 ticks
without inbound traffic. -/
def checkForTimeouts (c : LLCircuitData) (timeout : Nat) (now : Nat) :
    LLCircuitData :=
  let (u, q, lost) := sweepUnacked now timeout c.unackedPackets
  let c := { c with unackedPackets := u,
                    retryQueue := c.retryQueue ++ q,
                    packetsLost := c.packetsLost + lost }
  if 60 < now - c.lastReceiveTime then { c with alive := false } else c

/-! ## The circuit table (`LLCircuit`, `llcircuit.cpp` lines 208-436) -/

/-- Lookup in the host-keyed circuit table (`mCircuitData.find`). -/
def tableFind (l : List (Host × LLCircuitData)) (h : Host) :
    Option LLCircuitData :=
  match l with
  | [] => none
  | (k, v) :: rest => if k = h then some v else tableFind rest h

/-- Assignment into the host-keyed circuit table (`mCircuitData[h] = v`):
replaces an existing entry, otherwise prepends (iteration order of the
`std::unordered_map` is unspecified and unused). -/
def tableSet (l : List (Host × LLCircuitData)) (h : Host)
    (v : LLCircuitData) : List (Host × LLCircuitData) :=
  match l with
  | [] => [(h, v)]
  | (k, v') :: rest =>
    if k = h then (h, v) :: rest else (k, v') :: tableSet rest h v

/-- `LLCircuit` (`llcircuit.cpp` lines 208-223): the table of circuits and
the global settings (`mTimeoutSeconds = 5`, `mAllowTimeout = true`,
`mMaxCircuits = 256`). -/
structure LLCircuit where
  circuitData : List (Host × LLCircuitData)
  timeoutSeconds : Nat
  allowTimeout : Bool
  maxCircuits : Nat
deriving DecidableEq, Repr

/-- The `LLCircuit` constructor (`llcircuit.cpp` lines 219-223). -/
def newLLCircuit : LLCircuit where
  circuitData := []
  timeoutSeconds := 5
  allowTimeout := true
  maxCircuits := 256

/-- `LLCircuit::findCircuit` (`llcircuit.cpp` lines 227-231). -/
def findCircuit (t : LLCircuit) (h : Host) : Option LLCircuitData :=
  tableFind t.circuitData h

/-- `LLCircuit::addCircuit` (`llcircuit.cpp` lines 233-249): refuses
(`nullptr`, modelled as `none`) when the table already holds
`mMaxCircuits` circuits, otherwise installs a fresh circuit for the host
and returns it. -/
def addCircuit (t : LLCircuit) (h : Host) (now : Nat) :
    Option (LLCircuitData × LLCircuit) :=
  if t.maxCircuits ≤ t.circuitData.length then none
  else
    let c := newCircuitData h now
    some (c, { t with circuitData := tableSet t.circuitData h c })

/-- The find-or-create pattern shared by `LLCircuit::addReliablePacket`,
`nextPacketID` and `checkPacketIn` (`llcircuit.cpp` lines 286-315):
`findCircuit`, falling back to `addCircuit`.  `none` is the
capacity-exceeded failure. -/
def getOrCreate (t : LLCircuit) (h : Host) (now : Nat) :
    Option (LLCircuitData × LLCircuit) :=
  match findCircuit t h with
  | some c => some (c, t)
  | none => addCircuit t h now

/-- `LLCircuit::removeCircuit` (`llcircuit.cpp` lines 251-259). -/
def removeCircuit (t : LLCircuit) (h : Host) : LLCircuit :=
  { t with circuitData := t.circuitData.filter (fun e => !(e.1 = h : Bool)) }

/-- `LLCircuit::ackReliablePacket` (`llcircuit.cpp` lines 279-284): acks on
the host's circuit when one exists, otherwise does nothing. -/
def circuitAckReliablePacket (t : LLCircuit) (h : Host) (packet_id : Nat)
    (now : Nat) : LLCircuit :=
  match findCircuit t h with
  | none => t
  | some c =>
    { t with circuitData :=
        tableSet t.circuitData h (ackReliablePacket c packet_id now) }

/-- `LLCircuit::addReliablePacket` (`llcircuit.cpp` lines 286-295):
find-or-create the host's circuit, then install the packet; a capacity
failure is silently dropped. -/
def circuitAddReliablePacket (t : LLCircuit) (h : Host) (packet_id : Nat)
    (packet : LLPacketBuffer) (now : Nat) : LLCircuit :=
  match getOrCreate t h now with
  | none => t
  | some (c, t') =>
    { t' with circuitData :=
        tableSet t'.circuitData h (addReliablePacket c packet_id packet now) }

/-- `LLCircuit::nextPacketID` (`llcircuit.cpp` lines 297-304):
find-or-create the host's circuit and take its next outbound sequence;
on a capacity failure returns `0` with the table untouched. -/
def nextPacketID (t : LLCircuit) (h : Host) (now : Nat) : Nat × LLCircuit :=
  match getOrCreate t h now with
  | none => (0, t)
  | some (c, t') =>
    let (id, c') := nextPacketOutID c now
    (id, { t' with circuitData := tableSet t'.circuitData h c' })

/-- `LLCircuit::checkPacketIn` (`llcircuit.cpp` lines 306-315). -/
def circuitCheckPacketIn (t : LLCircuit) (h : Host) (packet_id : Nat)
    (now : Nat) : LLCircuit :=
  match getOrCreate t h now with
  | none => t
  | some (c, t') =>
    { t' with circuitData :=
        tableSet t'.circuitData h (checkPacketInID c packet_id now).1 }

/-! ## The message system (`LLMessageSystem`, `message.cpp`) -/

/-- `LLMessageTemplate` as populated by `loadMessageTemplate`
(`message.cpp` lines 254-271): name, number, reliable flag.  The
constructor in the (absent) header takes exactly these three; the
zero-coded flag is never set by `loadMessageTemplate`, so it is `false`
for every registered template.  Block/variable layout is carried by the
source only for `LoginRequest` and is not consulted by any operation
modelled here, so it is omitted. -/
structure LLMessageTemplate where
  name : String
  messageNumber : Nat
  reliable : Bool
  zeroCoded : Bool := false
deriving DecidableEq, Repr

/-- The template catalogue built by `initializeMessageTemplates`
(`message.cpp` lines 239-252), as (name, number, reliable) triples in
registration order. -/
def templateCatalogue : List LLMessageTemplate :=
  [⟨"StartPingCheck", 1, true, false⟩,
   ⟨"CompletePingCheck", 2, true, false⟩,
   ⟨"LoginRequest", 3, true, false⟩,
   ⟨"LoginReply", 4, true, false⟩,
   ⟨"ChatFromViewer", 80, true, false⟩,
   ⟨"ChatFromSimulator", 81, false, false⟩,
   ⟨"UpdateUserInfo", 180, true, false⟩,
   ⟨"RegionHandshake", 148, false, false⟩,
   ⟨"RegionHandshakeReply", 149, true, false⟩]

/-- The number-keyed template index `mMessageNumbers.find` (`message.cpp`
line 341). -/
def templateByNumber (ts : List LLMessageTemplate) (n : Nat) :
    Option LLMessageTemplate :=
  match ts with
  | [] => none
  | t :: rest => if t.messageNumber = n then some t else templateByNumber rest n

/-- Handler registry lookup (`mHandlerMap.find`, `message.cpp` line 361);
handlers are opaque identifiers kept in registration order. -/
def handlersFor (m : List (String × List Nat)) (name : String) : List Nat :=
  match m with
  | [] => []
  | (k, hs) :: rest => if k = name then hs else handlersFor rest name

/-- `LLMessageSystem` state, restricted to the fields the modelled
operations read or write (`message.cpp` lines 38-65, 236-237).  The
`throttleBucket` is the token level of the (single, host-independent in
this model) bucket consulted by `sendMessage`; `llthrottle.cpp` is not in
the sources, so the bucket behaviour is modelled from the spec (see
`checkOverflow`). -/
structure LLMessageSystem where
  templates : List LLMessageTemplate
  circuit : LLCircuit
  throttleBucket : Nat
  handlerMap : List (String × List Nat)
  packetsIn : Nat
  packetsOut : Nat
  packetsLost : Nat
  bytesIn : Nat
  bytesOut : Nat
  currentMessage : Option LLMessageTemplate
  sendBuffer : List Nat
deriving DecidableEq, Repr

/-- Modelled from the spec: `LLThrottleGroup::checkOverflow` (the file
`llthrottle.cpp` is not among the sources).  Spec §4.1: "returns true when
admitting `size_bytes` would exceed the bucket; otherwise debits and
returns false".  Returns the flag and the new token level. -/
def checkOverflow (bucket : Nat) (size : Nat) : Bool × Nat :=
  if bucket < size then (true, bucket) else (false, bucket - size)

/-- `LLMessageSystem::sendUDP` (`message.cpp` lines 389-393): the source
simulates a successful send and returns the full size. -/
def sendUDP (size : Nat) : Nat := size

/-- `LLMessageSystem::sendMessage` (`message.cpp` lines 127-156): assigns
a sequence from the host's circuit, consults the throttle, and — in the
branch the code actually takes when `checkOverflow` returns `false` —
returns 0; otherwise transmits, bumps the counters and, for a reliable
current template, installs the datagram in the circuit's unacked map.
Returns the byte count the builder reports and the new state. -/
def sendMessage (st : LLMessageSystem) (host : Host) (now : Nat) :
    Nat × LLMessageSystem :=
  if st.sendBuffer.length = 0 then (0, st)
  else
    let (packet_id, circuit') := nextPacketID st.circuit host now
    let st := { st with circuit := circuit' }
    -- Apply throttling: if (!mThrottles->checkOverflow(host, size)) return 0;
    let (overflow, bucket') := checkOverflow st.throttleBucket st.sendBuffer.length
    let st := { st with throttleBucket := bucket' }
    if overflow = false then (0, st)
    else
      let bytes_sent := sendUDP st.sendBuffer.length
      if 0 < bytes_sent then
        let st := { st with packetsOut := st.packetsOut + 1,
                            bytesOut := st.bytesOut + bytes_sent }
        let st :=
          match st.currentMessage with
          | some tmpl =>
            if tmpl.reliable then
              let pkt : LLPacketBuffer := ⟨st.sendBuffer, 0, 0, 0⟩
              { st with circuit :=
                  circuitAddReliablePacket st.circuit host packet_id pkt now }
            else st
          | none => st
        (bytes_sent, st)
      else (bytes_sent, st)

/-! ## Wire codec: header encoding and decoding (`message.cpp`) -/

/-- Little-endian 32-bit read, as performed by
`*reinterpret_cast<U32*>(...)` on the little-endian target
(`message.cpp` lines 321 and 329). -/
def fromLE4 (a b c d : Nat) : Nat :=
  a + b * 256 + c * 65536 + d * 16777216

/-- The four bytes of a `U32` in memory order on the little-endian target,
as copied by `addMessageHeader`'s `reinterpret_cast` insert
(`message.cpp` lines 302-304). -/
def toLE4 (n : Nat) : List Nat :=
  [n &&& 0xFF, (n >>> 8) &&& 0xFF, (n >>> 16) &&& 0xFF, (n >>> 24) &&& 0xFF]

/-- The message-number part of `LLMessageSystem::addMessageHeader`
(`message.cpp` lines 291-305): one byte when `msgnum < 256`, `0xFF`
followed by two big-endian bytes when `msgnum < 65536`, and `0xFF 0xFF`
followed by the four little-endian bytes otherwise. -/
def encodeOpcode (msgnum : Nat) : List Nat :=
  if msgnum < 256 then [msgnum]
  else if msgnum < 65536 then [0xFF, msgnum >>> 8, msgnum &&& 0xFF]
  else 0xFF :: 0xFF :: toLE4 msgnum

/-- `LLMessageSystem::addMessageHeader` (`message.cpp` lines 273-306):
flags byte, four placeholder sequence bytes, then the encoded message
number.  The flag constants come from the spec (§4.2: bit 0 reliable,
bit 1 zero-coded); `message.h` is not among the sources. -/
def addMessageHeader (tmpl : LLMessageTemplate) : List Nat :=
  let flags := (if tmpl.reliable then 1 else 0) + (if tmpl.zeroCoded then 2 else 0)
  flags :: 0 :: 0 :: 0 :: 0 :: encodeOpcode tmpl.messageNumber

/-- The sequence read of `LLMessageSystem::processMessage` (`message.cpp`
line 321): a little-endian `U32` at offset 1.  Out-of-range reads, which
are unchecked in the C++, are modelled as reading 0. -/
def parseSequence (buffer : List Nat) : Nat :=
  fromLE4 (buffer.getD 1 0) (buffer.getD 2 0) (buffer.getD 3 0) (buffer.getD 4 0)

/-- The message-number parse of `LLMessageSystem::processMessage`
(`message.cpp` lines 323-338), starting at offset 5: `0xFF` escapes to the
two-byte big-endian form, `0xFF 0xFF` to the four-byte little-endian form.
Returns the decoded number and the offset past the header. -/
def parseMsgNum (buffer : List Nat) : Nat × Nat :=
  if buffer.getD 5 0 = 0xFF then
    if buffer.getD 6 0 = 0xFF then
      (fromLE4 (buffer.getD 7 0) (buffer.getD 8 0)
        (buffer.getD 9 0) (buffer.getD 10 0), 11)
    else ((buffer.getD 6 0) <<< 8 ||| buffer.getD 7 0, 8)
  else (buffer.getD 5 0, 6)

/-- `LLMessageSystem::decodeZeroData` (`message.cpp` lines 376-386): the
loop looks for a `0x00` byte followed by a nonzero count and reads the run
length into a local variable, but the expansion itself is absent (the body
holds only the comment "Implementation would expand the zero run"); the
loop writes no byte and the function returns nothing, so as a function of
the buffer it is the identity. -/
def decodeZeroData (buffer : List Nat) : List Nat := buffer

/-- `LLMessageSystem::processMessage` (`message.cpp` lines 313-374):
rejects datagrams shorter than 6 bytes, parses flags / sequence / message
number, drops unknown message numbers, installs reliable datagrams in the
sender's circuit via `LLCircuit::addReliablePacket`, applies
`decodeZeroData` to the (unchanged) payload, and dispatches to every
handler registered for the template's name, in registration order.
Returns the success flag, the new state, and the identifiers of the
handlers invoked. -/
def processMessage (st : LLMessageSystem) (sender : Host)
    (buffer : List Nat) (now : Nat) :
    Bool × LLMessageSystem × List Nat :=
  if buffer.length < 6 then (false, st, [])
  else
    let flags := buffer.getD 0 0
    let reliable : Bool := (flags &&& 1) != 0
    let sequence := parseSequence buffer
    let msgnum := (parseMsgNum buffer).1
    match templateByNumber st.templates msgnum with
    | none => (false, st, [])
    | some tmpl =>
      let st :=
        if reliable then
          let pkt : LLPacketBuffer := ⟨buffer, 0, 0, 0⟩
          { st with circuit :=
              circuitAddReliablePacket st.circuit sender sequence pkt now }
        else st
      -- zero-coded payloads pass through decodeZeroData, which leaves
      -- the bytes unchanged; no state is affected
      let handlers := handlersFor st.handlerMap tmpl.name
      (true, st, handlers)

/-! ## Zero-run coding, modelled from the spec

`message.cpp` contains no zero-encoder at all, and its `decodeZeroData`
does not expand runs (see above); the functions below are the reference
semantics the spec states in §4.2 and §9 ("a run of one-or-more 0x00 bytes
is transmitted as `0x00 N` with N in 1..255; runs longer than 255 are
split into multiple pairs"; "on seeing 0x00, read N, emit N zero bytes;
otherwise emit the byte verbatim"). -/

/-- Modelled from the spec: the wire form of a run of `n` zeros, split
into `0x00 N` pairs with `N ≤ 255` (`zero_encode` is absent from the
sources). -/
def encodeRun (n : Nat) : List Nat :=
  if h : n ≤ 255 then [0, n] else 0 :: 255 :: encodeRun (n - 255)
termination_by n
decreasing_by omega

mutual

/-- Modelled from the spec: zero-run encoding of a logical payload
(`zero_encode` is absent from the sources).  Bytes other than `0x00` are
emitted verbatim; a maximal run of zeros is emitted via `encodeRun`. -/
def zeroEncode : List Nat → List Nat
  | [] => []
  | b :: rest =>
    if b = 0 then zeroEncodeZeros 1 rest else b :: zeroEncode rest
termination_by l => l.length

/-- Modelled from the spec: `zeroEncode` while inside a run of `n` pending
zeros. -/
def zeroEncodeZeros (n : Nat) : List Nat → List Nat
  | [] => encodeRun n
  | b :: rest =>
    if b = 0 then zeroEncodeZeros (n + 1) rest
    else encodeRun n ++ b :: zeroEncode rest
termination_by l => l.length

end

/-- Modelled from the spec: zero-run decoding (§4.2: "on seeing 0x00, read
N, emit N zero bytes; otherwise emit the byte verbatim").  A trailing lone
`0x00` with no count byte to read is dropped; the encoder never produces
one. -/
def zeroDecode : List Nat → List Nat
  | [] => []
  | b :: rest =>
    if b = 0 then
      match rest with
      | [] => []
      | n :: rest' => List.replicate n 0 ++ zeroDecode rest'
    else b :: zeroDecode rest

/-! ## Derived notions and concrete states used by the theorems -/

/-- Feeding a list of inbound sequence numbers to a circuit one at a time,
collecting the classification of each (`checkPacketInID` iterated). -/
def feedSequence (c : LLCircuitData) (now : Nat) :
    List Nat → LLCircuitData × List Classification
  | [] => (c, [])
  | id :: rest =>
    let (c', cls) := checkPacketInID c id now
    let (c'', clss) := feedSequence c' now rest
    (c'', cls :: clss)

/-- The spec's circuit invariant (§8, invariant 1): every key of the
unacked map is below the next outbound sequence (equivalently,
`next_outbound_sequence_value - 1` is ≥ every key, without 32-bit wrap). -/
def circuitInv (c : LLCircuitData) : Prop :=
  ∀ k ∈ c.unackedPackets.map Prod.fst, k < c.nextOutgoingSequence

instance (c : LLCircuitData) : Decidable (circuitInv c) :=
  inferInstanceAs (Decidable (∀ k ∈ _, _))

/-- The circuit invariant over every circuit of a table. -/
def tableInv (t : LLCircuit) : Prop :=
  ∀ e ∈ t.circuitData, circuitInv e.2

instance (t : LLCircuit) : Decidable (tableInv t) :=
  inferInstanceAs (Decidable (∀ e ∈ _, _))

/-- A circuit table holding its default maximum (256) of distinct hosts. -/
def fullTable : LLCircuit :=
  { newLLCircuit with
      circuitData :=
        (List.range 256).map (fun i => (⟨i, 0⟩, newCircuitData ⟨i, 0⟩ 0)) }

/-- A message-system state with a built 10-byte reliable message
(`ChatFromViewer`) pending and the given throttle token level. -/
def builtState (bucket : Nat) : LLMessageSystem where
  templates := templateCatalogue
  circuit := newLLCircuit
  throttleBucket := bucket
  handlerMap := []
  packetsIn := 0
  packetsOut := 0
  packetsLost := 0
  bytesIn := 0
  bytesOut := 0
  currentMessage := some ⟨"ChatFromViewer", 80, true, false⟩
  sendBuffer := List.replicate 10 1

/-- An empty message-system state (no circuits, no handlers). -/
def emptyState : LLMessageSystem where
  templates := templateCatalogue
  circuit := newLLCircuit
  throttleBucket := 0
  handlerMap := []
  packetsIn := 0
  packetsOut := 0
  packetsLost := 0
  bytesIn := 0
  bytesOut := 0
  currentMessage := none
  sendBuffer := []

/-- A reliable datagram with sequence 5 and opcode 1 (`StartPingCheck`):
flags byte `0x01`, little-endian sequence `5`, one-byte message number. -/
def reliableSeq5 : List Nat := [1, 5, 0, 0, 0, 1]

/-- A circuit to host (9,9) that has already received packets 0..9
(expected inbound sequence 10, three packets counted in). -/
def dupCircuit : LLCircuitData :=
  { newCircuitData ⟨9, 9⟩ 0 with nextIncomingSequence := 10, packetsIn := 3 }

/-- A message-system state holding `dupCircuit` and one handler (id 7)
registered for `StartPingCheck`. -/
def dupState : LLMessageSystem where
  templates := templateCatalogue
  circuit := { newLLCircuit with circuitData := [(⟨9, 9⟩, dupCircuit)] }
  throttleBucket := 0
  handlerMap := [("StartPingCheck", [7])]
  packetsIn := 0
  packetsOut := 0
  packetsLost := 0
  bytesIn := 0
  bytesOut := 0
  currentMessage := none
  sendBuffer := []

/-- A non-reliable datagram with sequence 3 and opcode 1: on `dupCircuit`
the sequence 3 is below the expected inbound sequence 10, so the spec
classifies it as duplicate-or-reordered. -/
def dupDatagram : List Nat := [0, 3, 0, 0, 0, 1]

/-! ## Theorems -/

/-- Closed form of the timeout sweep loop: survivors are the entries not
yet timed out, the retry queue receives the timed-out entries with retry
count below the give-up threshold after incrementing, and the loss count
grows by the number of given-up entries. -/
theorem sweepUnacked_eq (now timeout : Nat) (l : List (Nat × LLPacketBuffer)) :
    sweepUnacked now timeout l =
      (l.filter (fun e => !decide (timeout < now - e.2.sentTime)),
       (l.filter (fun e => decide (timeout < now - e.2.sentTime)
            && decide (e.2.retryCount + 1 < 3))).map
         (fun e => { e.2 with retryCount := e.2.retryCount + 1 }),
       (l.filter (fun e => decide (timeout < now - e.2.sentTime)
            && !decide (e.2.retryCount + 1 < 3))).length) := by
  induction l with
  | nil => simp [sweepUnacked]
  | cons e rest ih =>
    obtain ⟨k, p⟩ := e
    by_cases h1 : timeout < now - p.sentTime
    · by_cases h2 : p.retryCount + 1 < 3
      · simp [sweepUnacked, ih, h1, h2]
      · simp [sweepUnacked, ih, h1, h2]
    · simp [sweepUnacked, ih, h1]

/-- **C1.** For every circuit and every entry of its unacked map whose age
`now - sent_time` exceeds the timeout passed to the sweep, after
`checkForTimeouts` that entry's retry count is incremented and the entry is
in the retry queue (when the incremented count is `< 3`) or removed with
`packets_lost` incremented by exactly one per such entry (otherwise);
entries whose age does not exceed the timeout stay in the unacked map
unchanged. -/
theorem c1_sweep_timeouts (c : LLCircuitData) (timeout now : Nat) :
    (checkForTimeouts c timeout now).unackedPackets =
      c.unackedPackets.filter (fun e => !decide (timeout < now - e.2.sentTime))
  ∧ (checkForTimeouts c timeout now).retryQueue =
      c.retryQueue ++
        (c.unackedPackets.filter (fun e => decide (timeout < now - e.2.sentTime)
            && decide (e.2.retryCount + 1 < 3))).map
          (fun e => { e.2 with retryCount := e.2.retryCount + 1 })
  ∧ (checkForTimeouts c timeout now).packetsLost =
      c.packetsLost +
        (c.unackedPackets.filter (fun e => decide (timeout < now - e.2.sentTime)
            && !decide (e.2.retryCount + 1 < 3))).length := by
  unfold checkForTimeouts
  rw [sweepUnacked_eq]
  dsimp only
  split <;> simp

/-- **C2.** Feeding the inbound sequence numbers (0,1,2,2,4) to a fresh
circuit yields the classifications (in-order, in-order, in-order,
duplicate-or-reordered, in-order-after-gap) with `packets_lost = 1` and
`packets_in = 5`; in general, when an inbound sequence exceeds the
expected counter, the gap `sequence - expected` is added to
`packets_lost` and the expected counter becomes `sequence + 1`. -/
theorem c2_classification :
    ((feedSequence (newCircuitData ⟨0, 0⟩ 0) 0 [0, 1, 2, 2, 4]).2 =
        [Classification.inOrder, Classification.inOrder,
         Classification.inOrder, Classification.duplicateOrReordered,
         Classification.inOrderAfterGap]
      ∧ (feedSequence (newCircuitData ⟨0, 0⟩ 0) 0 [0, 1, 2, 2, 4]).1.packetsLost = 1
      ∧ (feedSequence (newCircuitData ⟨0, 0⟩ 0) 0 [0, 1, 2, 2, 4]).1.packetsIn = 5)
  ∧ ∀ (c : LLCircuitData) (id now : Nat), c.nextIncomingSequence < id →
      (checkPacketInID c id now).1.packetsLost =
          c.packetsLost + (id - c.nextIncomingSequence)
      ∧ (checkPacketInID c id now).1.nextIncomingSequence = id + 1
      ∧ (checkPacketInID c id now).2 = Classification.inOrderAfterGap := by
  refine ⟨by decide, ?_⟩
  intro c id now h
  simp [checkPacketInID, h]

/-- Witness for C2's general gap law at a fresh circuit and sequence 5. -/
theorem c2_classification_witness :
    (newCircuitData ⟨0, 0⟩ 0).nextIncomingSequence < 5
  ∧ ((checkPacketInID (newCircuitData ⟨0, 0⟩ 0) 5 0).1.packetsLost =
        (newCircuitData ⟨0, 0⟩ 0).packetsLost +
          (5 - (newCircuitData ⟨0, 0⟩ 0).nextIncomingSequence)
      ∧ (checkPacketInID (newCircuitData ⟨0, 0⟩ 0) 5 0).1.nextIncomingSequence = 5 + 1
      ∧ (checkPacketInID (newCircuitData ⟨0, 0⟩ 0) 5 0).2 =
          Classification.inOrderAfterGap) :=
  ⟨by decide, c2_classification.2 (newCircuitData ⟨0, 0⟩ 0) 5 0 (by decide)⟩

/-- **C9.** For every circuit and every sequence number `s` not present in
its unacked map, `ackReliablePacket s` is a complete no-op: the whole
circuit state — unacked map, cached oldest-unacked, last RTT sample,
averaged RTT, and all packet counters — is unchanged. -/
theorem c9_ack_absent_noop (c : LLCircuitData) (s now : Nat)
    (habsent : unackedFind c.unackedPackets s = none) :
    ackReliablePacket c s now = c := by
  unfold ackReliablePacket
  rw [habsent]

/-- Witness for C9 on a fresh circuit and sequence 5. -/
theorem c9_ack_absent_noop_witness :
    unackedFind (newCircuitData ⟨1, 2⟩ 3).unackedPackets 5 = none
  ∧ ackReliablePacket (newCircuitData ⟨1, 2⟩ 3) 5 7 = newCircuitData ⟨1, 2⟩ 3 :=
  ⟨rfl, c9_ack_absent_noop (newCircuitData ⟨1, 2⟩ 3) 5 7 rfl⟩

/-- **C7.** When the circuit table already holds its maximum of circuits
(256 by default), the get-or-create used by every table operation fails
(`addCircuit` returns the null-pointer failure, modelled as `none`) for a
host not yet present, creating nothing and leaving the table unchanged,
while get-or-create for an already-present host still yields that host's
circuit and the unchanged table. -/
theorem c7_capacity (t : LLCircuit) (h h' : Host) (c : LLCircuitData)
    (now : Nat)
    (hfull : t.maxCircuits ≤ t.circuitData.length)
    (habsent : findCircuit t h = none)
    (hpresent : findCircuit t h' = some c) :
    addCircuit t h now = none
  ∧ getOrCreate t h now = none
  ∧ getOrCreate t h' now = some (c, t) := by
  have hadd : addCircuit t h now = none := by
    unfold addCircuit
    rw [if_pos hfull]
  refine ⟨hadd, ?_, ?_⟩
  · unfold getOrCreate
    rw [habsent, hadd]
  · unfold getOrCreate
    rw [hpresent]

set_option maxRecDepth 20000 in
/-- Witness for C7 at the default maximum: a table of 256 distinct hosts
rejects host (300,0) and still serves host (0,0). -/
theorem c7_capacity_witness :
    (fullTable.maxCircuits ≤ fullTable.circuitData.length
      ∧ findCircuit fullTable ⟨300, 0⟩ = none
      ∧ findCircuit fullTable ⟨0, 0⟩ = some (newCircuitData ⟨0, 0⟩ 0))
  ∧ (addCircuit fullTable ⟨300, 0⟩ 0 = none
      ∧ getOrCreate fullTable ⟨300, 0⟩ 0 = none
      ∧ getOrCreate fullTable ⟨0, 0⟩ 0 =
          some (newCircuitData ⟨0, 0⟩ 0, fullTable)) := by
  have h1 : fullTable.maxCircuits ≤ fullTable.circuitData.length := by
    simp [fullTable, newLLCircuit]
  have h2 : findCircuit fullTable ⟨300, 0⟩ = none := by decide
  have h3 : findCircuit fullTable ⟨0, 0⟩ = some (newCircuitData ⟨0, 0⟩ 0) := by
    decide
  exact ⟨⟨h1, h2, h3⟩, c7_capacity fullTable ⟨300, 0⟩ ⟨0, 0⟩ _ 0 h1 h2 h3⟩

/-- **C10.** When the circuit table is at capacity and a host has no
existing circuit, `nextPacketID` for that host returns 0 and leaves the
table exactly as it was — the same value a fresh circuit legitimately
assigns to its first outbound packet (`nextPacketOutID` on a fresh
circuit returns 0). -/
theorem c10_nextPacketID_capacity (t : LLCircuit) (h h0 : Host)
    (now t0 now0 : Nat)
    (hfull : t.maxCircuits ≤ t.circuitData.length)
    (habsent : findCircuit t h = none) :
    nextPacketID t h now = (0, t)
  ∧ (nextPacketOutID (newCircuitData h0 t0) now0).1 = 0 := by
  constructor
  · unfold nextPacketID getOrCreate addCircuit
    rw [habsent, if_pos hfull]
  · rfl

set_option maxRecDepth 20000 in
/-- Witness for C10 at the default maximum, host (300,0). -/
theorem c10_nextPacketID_capacity_witness :
    (fullTable.maxCircuits ≤ fullTable.circuitData.length
      ∧ findCircuit fullTable ⟨300, 0⟩ = none)
  ∧ (nextPacketID fullTable ⟨300, 0⟩ 0 = (0, fullTable)
      ∧ (nextPacketOutID (newCircuitData ⟨4, 4⟩ 0) 0).1 = 0) := by
  have h1 : fullTable.maxCircuits ≤ fullTable.circuitData.length := by
    simp [fullTable, newLLCircuit]
  have h2 : findCircuit fullTable ⟨300, 0⟩ = none := by decide
  exact ⟨⟨h1, h2⟩,
    c10_nextPacketID_capacity fullTable ⟨300, 0⟩ ⟨4, 4⟩ 0 0 0 h1 h2⟩

/-- **C4 (code bug).** The encoder emits opcode 255 (`0xFF`) in a single
byte, because `addMessageHeader` tests `msgnum < 256` where the claim (and
the decoder, which treats a leading `0xFF` as the wide-opcode escape)
requires `msgnum < 0xFF`; decoding the resulting header followed by
payload bytes `[1, 7]` yields `(1 <<< 8) ||| 7 = 263`, not 255, so the
decoder does not invert the encoding at opcode 255.  The wide form is
intact: opcode `0x20000` round-trips. -/
theorem c4_opcode_width_bug :
    encodeOpcode 255 = [0xFF]
  ∧ ¬(255 < 0xFF)
  ∧ (parseMsgNum (addMessageHeader ⟨"Narrow", 255, true, false⟩ ++ [1, 7])).1 = 263
  ∧ (parseMsgNum (addMessageHeader ⟨"Wide", 0x20000, true, false⟩ ++ [1, 7])).1
      = 0x20000 := by
  decide

/-- **C5 (code bug).** `sendMessage` returns 0 and drops the message
exactly when `checkOverflow` returns `false` — that is, when the throttle
*admits* the message and debits the bucket — and transmits (returning the
byte count, bumping `packetsOut`, installing the reliable copy in the
unacked map) exactly when `checkOverflow` returns `true`, i.e. when the
throttle rejects it: the code's `if (!mThrottles->checkOverflow(...))
return 0;` inverts the spec's contract.  Shown on a built 10-byte reliable
message with an ample bucket (100 tokens: admitted, yet dropped) and a
depleted bucket (5 tokens: rejected, yet sent). -/
theorem c5_throttle_inverted :
    checkOverflow 100 10 = (false, 90)
  ∧ (sendMessage (builtState 100) ⟨7, 7⟩ 0).1 = 0
  ∧ (sendMessage (builtState 100) ⟨7, 7⟩ 0).2.packetsOut = 0
  ∧ (findCircuit (sendMessage (builtState 100) ⟨7, 7⟩ 0).2.circuit ⟨7, 7⟩).map
      (fun c => c.unackedPackets) = some []
  ∧ checkOverflow 5 10 = (true, 5)
  ∧ (sendMessage (builtState 5) ⟨7, 7⟩ 0).1 = 10
  ∧ (sendMessage (builtState 5) ⟨7, 7⟩ 0).2.packetsOut = 1
  ∧ (findCircuit (sendMessage (builtState 5) ⟨7, 7⟩ 0).2.circuit ⟨7, 7⟩).map
      (fun c => c.unackedPackets.map Prod.fst) = some [0] := by
  decide

/-- Decoding the empty wire sequence. -/
theorem zeroDecode_nil : zeroDecode [] = [] := rfl

/-- Decoding a `0x00 N` escape emits `N` zeros. -/
theorem zeroDecode_cons_zero (n : Nat) (rest : List Nat) :
    zeroDecode (0 :: n :: rest) = List.replicate n 0 ++ zeroDecode rest := by
  rw [zeroDecode.eq_def]
  simp

/-- Decoding a non-zero byte passes it through verbatim. -/
theorem zeroDecode_cons_ne (b : Nat) (l : List Nat) (h : b ≠ 0) :
    zeroDecode (b :: l) = b :: zeroDecode l := by
  rw [zeroDecode.eq_def]
  simp [h]

/-- Unfolding `zeroEncode` at the empty payload. -/
theorem zeroEncode_nil : zeroEncode [] = [] := by
  rw [zeroEncode.eq_def]

/-- Unfolding `zeroEncode` at a leading zero. -/
theorem zeroEncode_cons_zero (rest : List Nat) :
    zeroEncode (0 :: rest) = zeroEncodeZeros 1 rest := by
  rw [zeroEncode.eq_def]
  simp

/-- Unfolding `zeroEncode` at a leading non-zero byte. -/
theorem zeroEncode_cons_ne (b : Nat) (rest : List Nat) (h : b ≠ 0) :
    zeroEncode (b :: rest) = b :: zeroEncode rest := by
  rw [zeroEncode.eq_def]
  simp [h]

/-- Unfolding `zeroEncodeZeros` at the end of the payload. -/
theorem zeroEncodeZeros_nil (n : Nat) : zeroEncodeZeros n [] = encodeRun n := by
  rw [zeroEncodeZeros.eq_def]

/-- Unfolding `zeroEncodeZeros` at a further zero. -/
theorem zeroEncodeZeros_cons_zero (n : Nat) (rest : List Nat) :
    zeroEncodeZeros n (0 :: rest) = zeroEncodeZeros (n + 1) rest := by
  rw [zeroEncodeZeros.eq_def]
  simp

/-- Unfolding `zeroEncodeZeros` at a non-zero byte: flush the run. -/
theorem zeroEncodeZeros_cons_ne (n b : Nat) (rest : List Nat) (h : b ≠ 0) :
    zeroEncodeZeros n (b :: rest) = encodeRun n ++ b :: zeroEncode rest := by
  rw [zeroEncodeZeros.eq_def]
  simp [h]

/-- Decoding the wire form of a run of `n` zeros prepends `n` zeros. -/
theorem zeroDecode_encodeRun (n : Nat) (t : List Nat) :
    zeroDecode (encodeRun n ++ t) = List.replicate n 0 ++ zeroDecode t := by
  induction n using Nat.strong_induction_on with
  | _ n ih =>
    by_cases h : n ≤ 255
    · rw [encodeRun, dif_pos h]
      simp only [List.cons_append, List.nil_append]
      rw [zeroDecode_cons_zero]
    · rw [encodeRun, dif_neg h]
      simp only [List.cons_append]
      rw [zeroDecode_cons_zero]
      rw [ih (n - 255) (by omega), ← List.append_assoc, ← List.replicate_add,
        show 255 + (n - 255) = n by omega]

/-- Joint round-trip for the spec-modelled zero coding: decoding inverts
encoding, also from within a pending run of `n` zeros. -/
theorem zeroDecode_zeroEncode_aux (l : List Nat) :
    zeroDecode (zeroEncode l) = l
  ∧ ∀ n, zeroDecode (zeroEncodeZeros n l) = List.replicate n 0 ++ l := by
  induction l with
  | nil =>
    refine ⟨by rw [zeroEncode_nil, zeroDecode_nil], fun n => ?_⟩
    have h := zeroDecode_encodeRun n []
    rw [zeroEncodeZeros_nil]
    simpa [zeroDecode_nil] using h
  | cons b rest ih =>
    obtain ⟨ih1, ih2⟩ := ih
    constructor
    · by_cases hb : b = 0
      · subst hb
        rw [zeroEncode_cons_zero, ih2 1]
        simp
      · rw [zeroEncode_cons_ne _ _ hb, zeroDecode_cons_ne _ _ hb, ih1]
    · intro n
      by_cases hb : b = 0
      · subst hb
        rw [zeroEncodeZeros_cons_zero, ih2 (n + 1), List.replicate_succ',
          List.append_assoc]
        simp
      · rw [zeroEncodeZeros_cons_ne _ _ _ hb, zeroDecode_encodeRun,
          zeroDecode_cons_ne _ _ hb, ih1]

/-- Zero-encoding is the identity on payloads without `0x00` bytes. -/
theorem zeroEncode_no_zero (l : List Nat) (h : ∀ b ∈ l, b ≠ 0) :
    zeroEncode l = l := by
  induction l with
  | nil => exact zeroEncode_nil
  | cons b rest ih =>
    have hb : b ≠ 0 := h b (List.mem_cons_self b rest)
    rw [zeroEncode_cons_ne _ _ hb,
      ih (fun x hx => h x (List.mem_cons_of_mem _ hx))]

/-- **C3 (code bug).** The code's `decodeZeroData` performs no expansion
at all: it leaves the on-wire bytes `[0xAA, 0x00, 0x03, 0xBB]` unchanged
and so does not recover `[0xAA, 0x00, 0x00, 0x00, 0xBB]`, contradicting
its own description.  Under the spec's zero-coding rule (modelled here,
since no zero-encoder exists in the sources), the claim itself is sound:
the example encodes to exactly the wire bytes and decodes back, and in
general `zero_decode (zero_encode P) = P` for every byte sequence `P`,
with `zero_encode` the identity on sequences without `0x00`. -/
theorem c3_zero_coding :
    (decodeZeroData [0xAA, 0x00, 0x03, 0xBB] = [0xAA, 0x00, 0x03, 0xBB]
      ∧ decodeZeroData [0xAA, 0x00, 0x03, 0xBB] ≠ [0xAA, 0x00, 0x00, 0x00, 0xBB])
  ∧ zeroEncode [0xAA, 0x00, 0x00, 0x00, 0xBB] = [0xAA, 0x00, 0x03, 0xBB]
  ∧ zeroDecode [0xAA, 0x00, 0x03, 0xBB] = [0xAA, 0x00, 0x00, 0x00, 0xBB]
  ∧ (∀ P : List Nat, zeroDecode (zeroEncode P) = P)
  ∧ (∀ P : List Nat, (∀ b ∈ P, b ≠ 0) → zeroEncode P = P) := by
  refine ⟨⟨rfl, by decide⟩, ?_, by decide,
    fun P => (zeroDecode_zeroEncode_aux P).1, fun P h => zeroEncode_no_zero P h⟩
  rw [zeroEncode_cons_ne _ _ (by decide), zeroEncode_cons_zero,
    zeroEncodeZeros_cons_zero, zeroEncodeZeros_cons_zero,
    zeroEncodeZeros_cons_ne _ _ _ (by decide), zeroEncode_nil,
    encodeRun, dif_pos (by decide)]
  rfl

/-- Witness for C3's identity law on the zero-free payload `[1, 2, 3]`. -/
theorem c3_zero_coding_witness :
    (∀ b ∈ [1, 2, 3], b ≠ 0) ∧ zeroEncode [1, 2, 3] = [1, 2, 3] :=
  ⟨by decide, c3_zero_coding.2.2.2.2 [1, 2, 3] (by decide)⟩

/-- `checkPacketInID` never touches the unacked map or the outbound
counter. -/
theorem checkPacketInID_frame (c : LLCircuitData) (id now : Nat) :
    (checkPacketInID c id now).1.unackedPackets = c.unackedPackets
  ∧ (checkPacketInID c id now).1.nextOutgoingSequence =
      c.nextOutgoingSequence := by
  by_cases h1 : c.nextIncomingSequence < id
  · simp [checkPacketInID, h1]
  · by_cases h2 : id = c.nextIncomingSequence
    · simp [checkPacketInID, h1, h2]
    · simp [checkPacketInID, h1, h2]

/-- `addReliablePacket` inserts the stamped buffer and leaves every other
relevant field alone. -/
theorem addReliablePacket_frame (c : LLCircuitData) (id : Nat)
    (pkt : LLPacketBuffer) (now : Nat) :
    (addReliablePacket c id pkt now).unackedPackets =
      unackedInsert id { pkt with seq := id, sentTime := now } c.unackedPackets
  ∧ (addReliablePacket c id pkt now).nextOutgoingSequence =
      c.nextOutgoingSequence
  ∧ (addReliablePacket c id pkt now).packetsIn = c.packetsIn
  ∧ (addReliablePacket c id pkt now).nextIncomingSequence =
      c.nextIncomingSequence
  ∧ (addReliablePacket c id pkt now).packetsLost = c.packetsLost
  ∧ (addReliablePacket c id pkt now).packetLoss = c.packetLoss := by
  unfold addReliablePacket
  dsimp only
  split <;> simp

/-- `ackReliablePacket` leaves the unacked map alone or filters one key
out, and never touches the outbound counter. -/
theorem ackReliablePacket_frame (c : LLCircuitData) (s now : Nat) :
    ((ackReliablePacket c s now).unackedPackets = c.unackedPackets
      ∨ (ackReliablePacket c s now).unackedPackets =
          c.unackedPackets.filter (fun e => !(e.1 = s : Bool)))
  ∧ (ackReliablePacket c s now).nextOutgoingSequence =
      c.nextOutgoingSequence := by
  unfold ackReliablePacket
  cases hf : unackedFind c.unackedPackets s with
  | none => simp
  | some buffer =>
    dsimp only
    split <;> simp

/-- The sweep keeps a sub-multiset of the unacked entries and never
touches the outbound counter. -/
theorem checkForTimeouts_frame (c : LLCircuitData) (t now : Nat) :
    (checkForTimeouts c t now).unackedPackets =
      c.unackedPackets.filter (fun e => !decide (t < now - e.2.sentTime))
  ∧ (checkForTimeouts c t now).nextOutgoingSequence =
      c.nextOutgoingSequence := by
  unfold checkForTimeouts
  rw [sweepUnacked_eq]
  dsimp only
  split <;> simp

/-- A key of `unackedInsert k v l` is `k` or a key of `l`. -/
theorem mem_keys_unackedInsert {k' k : Nat} {v : LLPacketBuffer}
    {l : List (Nat × LLPacketBuffer)}
    (h : k' ∈ (unackedInsert k v l).map Prod.fst) :
    k' = k ∨ k' ∈ l.map Prod.fst := by
  induction l with
  | nil => simpa [unackedInsert] using h
  | cons e rest ih =>
    obtain ⟨ke, ve⟩ := e
    by_cases h1 : k < ke
    · simp only [unackedInsert, if_pos h1, List.map_cons, List.mem_cons] at h
      simpa using h
    · by_cases h2 : k = ke
      · simp only [unackedInsert, if_neg h1, if_pos h2, List.map_cons,
          List.mem_cons] at h
        rcases h with h | h
        · exact Or.inl h
        · exact Or.inr (by simp [List.mem_cons, h])
      · simp only [unackedInsert, if_neg h1, if_neg h2, List.map_cons,
          List.mem_cons] at h
        rcases h with h | h
        · exact Or.inr (by simp [h])
        · rcases ih h with h' | h'
          · exact Or.inl h'
          · exact Or.inr (by simp [List.mem_cons, h'])

/-- A key of a filtered association list is a key of the original. -/
theorem mem_keys_filter {k : Nat} {p : Nat × LLPacketBuffer → Bool}
    {l : List (Nat × LLPacketBuffer)}
    (h : k ∈ (l.filter p).map Prod.fst) : k ∈ l.map Prod.fst := by
  simp only [List.mem_map] at h ⊢
  obtain ⟨e, he, rfl⟩ := h
  exact ⟨e, (List.mem_filter.mp he).1, rfl⟩

/-- **C6 counterexample.** Processing a received reliable datagram with
sequence 5 on a system with no circuits installs key 5 in the sender's
freshly created circuit while its outbound counter is still 0: the
invariant "every unacked key is below the next outbound sequence" is
violated by `processMessage`, at the very operation the claim includes. -/
theorem c6_counterexample :
    tableInv emptyState.circuit
  ∧ ¬ tableInv (processMessage emptyState ⟨9, 9⟩ reliableSeq5 0).2.1.circuit := by
  constructor
  · decide
  · decide

/-- **C6 (amended).** The unacked-keys invariant — every key of the
unacked map is below the next outbound sequence — is preserved by the
circuit's own operations: inbound classification (`checkPacketInID`),
outbound sequence assignment (`nextPacketOutID`), the send-path install
(`addReliablePacket` keyed by the sequence just drawn from the circuit's
own counter), acknowledgment, and the timeout sweep.  It is *not*
preserved by the processing of received reliable datagrams, which
installs the sender's sequence number (see the counterexample). -/
theorem c6_unacked_invariant (c : LLCircuitData) (now t s id : Nat)
    (pkt : LLPacketBuffer) (hinv : circuitInv c) :
    circuitInv (checkPacketInID c id now).1
  ∧ circuitInv (nextPacketOutID c now).2
  ∧ circuitInv
      (addReliablePacket (nextPacketOutID c now).2 (nextPacketOutID c now).1
        pkt now)
  ∧ circuitInv (ackReliablePacket c s now)
  ∧ circuitInv (checkForTimeouts c t now) := by
  unfold circuitInv at hinv
  refine ⟨?_, ?_, ?_, ?_, ?_⟩
  · intro k hk
    rw [(checkPacketInID_frame c id now).2]
    exact hinv k (by rwa [(checkPacketInID_frame c id now).1] at hk)
  · intro k hk
    simp only [nextPacketOutID] at hk ⊢
    exact Nat.lt_succ_of_lt (hinv k hk)
  · intro k hk
    rw [(addReliablePacket_frame _ _ _ _).1] at hk
    rw [(addReliablePacket_frame _ _ _ _).2.1]
    rcases mem_keys_unackedInsert hk with rfl | hk'
    · simp [nextPacketOutID]
    · simp only [nextPacketOutID] at hk' ⊢
      exact Nat.lt_succ_of_lt (hinv k hk')
  · intro k hk
    rw [(ackReliablePacket_frame c s now).2]
    rcases (ackReliablePacket_frame c s now).1 with heq | heq
    · exact hinv k (heq ▸ hk)
    · rw [heq] at hk
      exact hinv k (mem_keys_filter hk)
  · intro k hk
    rw [(checkForTimeouts_frame c t now).2]
    rw [(checkForTimeouts_frame c t now).1] at hk
    exact hinv k (mem_keys_filter hk)

/-- Witness for C6's amended invariant preservation on a fresh circuit. -/
theorem c6_unacked_invariant_witness :
    circuitInv (newCircuitData ⟨2, 2⟩ 0)
  ∧ (circuitInv (checkPacketInID (newCircuitData ⟨2, 2⟩ 0) 3 1).1
      ∧ circuitInv (nextPacketOutID (newCircuitData ⟨2, 2⟩ 0) 1).2
      ∧ circuitInv
          (addReliablePacket (nextPacketOutID (newCircuitData ⟨2, 2⟩ 0) 1).2
            (nextPacketOutID (newCircuitData ⟨2, 2⟩ 0) 1).1 ⟨[9], 0, 0, 0⟩ 1)
      ∧ circuitInv (ackReliablePacket (newCircuitData ⟨2, 2⟩ 0) 0 1)
      ∧ circuitInv (checkForTimeouts (newCircuitData ⟨2, 2⟩ 0) 5 1)) :=
  ⟨by decide, c6_unacked_invariant (newCircuitData ⟨2, 2⟩ 0) 1 5 0 3
    ⟨[9], 0, 0, 0⟩ (by decide)⟩

/-- Assigning a host's slot makes lookup of that host return the value. -/
theorem tableFind_tableSet_self (l : List (Host × LLCircuitData)) (h : Host)
    (v : LLCircuitData) : tableFind (tableSet l h v) h = some v := by
  induction l with
  | nil => simp [tableSet, tableFind]
  | cons e rest ih =>
    obtain ⟨k, v'⟩ := e
    by_cases hk : k = h
    · simp [tableSet, tableFind, hk]
    · simp [tableSet, tableFind, hk, ih]

/-- Assigning one host's slot leaves lookups of other hosts unchanged. -/
theorem tableFind_tableSet_ne (l : List (Host × LLCircuitData))
    (h h' : Host) (v : LLCircuitData) (hne : h' ≠ h) :
    tableFind (tableSet l h v) h' = tableFind l h' := by
  induction l with
  | nil => simp [tableSet, tableFind, hne, Ne.symm hne]
  | cons e rest ih =>
    obtain ⟨k, v'⟩ := e
    by_cases hk : k = h
    · subst hk
      simp [tableSet, tableFind, hne, Ne.symm hne]
    · simp [tableSet, tableFind, hk, ih]

/-- `LLCircuit::addReliablePacket` (the receive-path install) preserves
every existing circuit's inbound counters: the circuit found for any host
afterwards has the same `packetsIn`, expected inbound sequence,
`packetsLost` and `packetLoss` as before. -/
theorem circuitAddReliablePacket_find (t : LLCircuit) (sender hst : Host)
    (seq : Nat) (pkt : LLPacketBuffer) (now : Nat) (c : LLCircuitData)
    (hfind : tableFind t.circuitData hst = some c) :
    ∃ c', tableFind
        (circuitAddReliablePacket t sender seq pkt now).circuitData hst =
          some c'
      ∧ c'.packetsIn = c.packetsIn
      ∧ c'.nextIncomingSequence = c.nextIncomingSequence
      ∧ c'.packetsLost = c.packetsLost
      ∧ c'.packetLoss = c.packetLoss := by
  unfold circuitAddReliablePacket getOrCreate
  cases hf : findCircuit t sender with
  | some c0 =>
    dsimp only
    by_cases hsend : hst = sender
    · subst hsend
      have hc : c0 = c := by
        unfold findCircuit at hf
        rw [hf] at hfind
        exact (Option.some.inj hfind)
      subst hc
      refine ⟨addReliablePacket c0 seq pkt now, ?_,
        (addReliablePacket_frame c0 seq pkt now).2.2.1,
        (addReliablePacket_frame c0 seq pkt now).2.2.2.1,
        (addReliablePacket_frame c0 seq pkt now).2.2.2.2.1,
        (addReliablePacket_frame c0 seq pkt now).2.2.2.2.2⟩
      exact tableFind_tableSet_self _ _ _
    · refine ⟨c, ?_, rfl, rfl, rfl, rfl⟩
      rw [tableFind_tableSet_ne _ _ _ _ hsend]
      exact hfind
  | none =>
    have hsend : hst ≠ sender := by
      intro hEq
      subst hEq
      unfold findCircuit at hf
      rw [hf] at hfind
      exact Option.noConfusion hfind
    unfold addCircuit
    by_cases hcap : t.maxCircuits ≤ t.circuitData.length
    · rw [if_pos hcap]
      exact ⟨c, hfind, rfl, rfl, rfl, rfl⟩
    · rw [if_neg hcap]
      dsimp only
      refine ⟨c, ?_, rfl, rfl, rfl, rfl⟩
      rw [tableFind_tableSet_ne _ _ _ _ hsend,
        tableFind_tableSet_ne _ _ _ _ hsend]
      exact hfind

/-- **C8 counterexample.** On a circuit expecting inbound sequence 10, a
datagram with sequence 3 — which `checkPacketInID` classifies as
duplicate-or-reordered — still has its registered handler (id 7) invoked
by `processMessage`, and the system state is completely unchanged: the
dispatcher never calls the inbound classifier at all, so handlers are not
restricted to first-time in-order datagrams. -/
theorem c8_counterexample :
    parseSequence dupDatagram < dupCircuit.nextIncomingSequence
  ∧ (checkPacketInID dupCircuit (parseSequence dupDatagram) 0).2 =
      Classification.duplicateOrReordered
  ∧ (processMessage dupState ⟨9, 9⟩ dupDatagram 0).2.2 = [7]
  ∧ (processMessage dupState ⟨9, 9⟩ dupDatagram 0).2.1 = dupState := by
  refine ⟨by decide, by decide, by decide, by decide⟩

/-- **C8 (amended).** For every datagram that parses (length ≥ 6, known
message number), `processMessage` invokes exactly the handlers registered
for the decoded template's name, in registration order, regardless of how
the sequence compares to the sender circuit's expected inbound counter;
it never calls `checkPacketInID` (record_inbound): every pre-existing
circuit keeps its `packetsIn`, expected inbound sequence, `packetsLost`
and `packetLoss` unchanged (a reliable datagram only installs its
sequence in the sender circuit's unacked map). -/
theorem c8_dispatch (st : LLMessageSystem) (sender : Host)
    (buffer : List Nat) (now : Nat) (tmpl : LLMessageTemplate)
    (hst : Host) (c : LLCircuitData)
    (hlen : ¬ buffer.length < 6)
    (htmpl : templateByNumber st.templates (parseMsgNum buffer).1 = some tmpl)
    (hfind : tableFind st.circuit.circuitData hst = some c) :
    (processMessage st sender buffer now).1 = true
  ∧ (processMessage st sender buffer now).2.2 =
      handlersFor st.handlerMap tmpl.name
  ∧ ∃ c', tableFind
        (processMessage st sender buffer now).2.1.circuit.circuitData hst =
          some c'
      ∧ c'.packetsIn = c.packetsIn
      ∧ c'.nextIncomingSequence = c.nextIncomingSequence
      ∧ c'.packetsLost = c.packetsLost
      ∧ c'.packetLoss = c.packetLoss := by
  unfold processMessage
  rw [if_neg hlen]
  dsimp only
  rw [htmpl]
  dsimp only
  split
  · exact ⟨rfl, rfl,
      circuitAddReliablePacket_find st.circuit sender hst
        (parseSequence buffer) ⟨buffer, 0, 0, 0⟩ now c hfind⟩
  · exact ⟨rfl, rfl, c, hfind, rfl, rfl, rfl, rfl⟩

/-- Witness for C8's amended dispatch law at the duplicate datagram. -/
theorem c8_dispatch_witness :
    (¬ dupDatagram.length < 6
      ∧ templateByNumber dupState.templates (parseMsgNum dupDatagram).1 =
          some ⟨"StartPingCheck", 1, true, false⟩
      ∧ tableFind dupState.circuit.circuitData ⟨9, 9⟩ = some dupCircuit)
  ∧ ((processMessage dupState ⟨9, 9⟩ dupDatagram 0).1 = true
      ∧ (processMessage dupState ⟨9, 9⟩ dupDatagram 0).2.2 =
          handlersFor dupState.handlerMap "StartPingCheck"
      ∧ ∃ c', tableFind
            (processMessage dupState ⟨9, 9⟩ dupDatagram 0).2.1.circuit.circuitData
              ⟨9, 9⟩ = some c'
          ∧ c'.packetsIn = dupCircuit.packetsIn
          ∧ c'.nextIncomingSequence = dupCircuit.nextIncomingSequence
          ∧ c'.packetsLost = dupCircuit.packetsLost
          ∧ c'.packetLoss = dupCircuit.packetLoss) := by
  have h1 : ¬ dupDatagram.length < 6 := by decide
  have h2 : templateByNumber dupState.templates (parseMsgNum dupDatagram).1 =
      some ⟨"StartPingCheck", 1, true, false⟩ := by decide
  have h3 : tableFind dupState.circuit.circuitData ⟨9, 9⟩ = some dupCircuit := by
    decide
  exact ⟨⟨h1, h2, h3⟩,
    c8_dispatch dupState ⟨9, 9⟩ dupDatagram 0 _ ⟨9, 9⟩ dupCircuit h1 h2 h3⟩

end Linkpoint
